import Mathlib

/-!
Shallow embedding of the price-caching backend of the strategy-btc-dashboard
repository (backend/cache.js, backend/rateLimiter.js, backend/priceService.js
and the `/api/prices/all` handler of backend/server.js), together with
theorems settling the specification claims about it.

Conventions of the embedding:
* times are absolute milliseconds, represented as `Nat` (`Date.now()`);
* JavaScript numbers are rationals; the heterogeneous values stored in the
  cache are a small variant type `JSValue`;
* the nondeterministic inputs of the code (`Math.random()` draws, outcomes of
  upstream HTTP requests) are passed in explicitly through an `Env`;
* the mutable singletons (cache, rate limiter, wall clock) are threaded as an
  explicit state `SysState`; sleeps advance the clock and are also logged, and
  every dispatched upstream attempt increments the `attempts` counter, so that
  "no upstream traffic" and "the backoff slept d ms" are stateable;
* code that can `throw` is modelled with `Except String`; a `try { } catch`
  becomes a `match` on the `Except` value.
-/

namespace BtcDash

/-! ### Configuration constants (backend/config.js) -/

/-- CONFIG.TTL_MIN, seconds. -/
def TTL_MIN : ℕ := 300

/-- CONFIG.TTL_MAX, seconds. -/
def TTL_MAX : ℕ := 600

/-- CONFIG.POLYGON_RATE_LIMIT, calls per window. -/
def POLYGON_RATE_LIMIT : ℕ := 5

/-- CONFIG.RATE_LIMIT_WINDOW, seconds. -/
def RATE_LIMIT_WINDOW : ℕ := 60

/-- CONFIG.MAX_RETRIES. -/
def MAX_RETRIES : ℕ := 5

/-- CONFIG.BASE_DELAY, milliseconds. -/
def BASE_DELAY : ℕ := 16000

/-- The rate-limit window in milliseconds (`CONFIG.RATE_LIMIT_WINDOW * 1000`). -/
def windowMs : ℕ := RATE_LIMIT_WINDOW * 1000

/-! ### JavaScript values -/

/-- The value shapes that actually flow through the service: plain numbers
(BTC price, EUR/USD rate), `null`, and flat records such as the Polygon
quote `\x7bprice, volume, high, low\x7d` or the fallback `\x7bprice, avg10d\x7d`. -/
inductive JSValue where
  | num (q : ℚ)
  | nullV
  | obj (fields : List (String × ℚ))
deriving DecidableEq, Repr

/-- JavaScript truthiness of a `JSValue`: `0` and `null` are falsy, every
object is truthy. -/
def truthy : JSValue → Bool
  | .num q => decide (q ≠ 0)
  | .nullV => false
  | .obj _ => true

/-- Truthiness of the result of `cache.get` (which returns `null`, i.e. a
falsy value, on a miss). -/
def truthyOpt : Option JSValue → Bool
  | none => false
  | some v => truthy v

/-! ### Association lists (the JS `Map` / object fields) -/

/-- Lookup in an association list (JS `Map.get` / property read). -/
def afind {α : Type} (k : String) : List (String × α) → Option α
  | [] => none
  | (k', v) :: t => if k' = k then some v else afind k t

/-- Insert-or-replace in an association list (JS `Map.set` / property write):
replaces in place if the key is present, appends otherwise. -/
def aset {α : Type} (k : String) (v : α) : List (String × α) → List (String × α)
  | [] => [(k, v)]
  | (k', v') :: t => if k' = k then (k, v) :: t else (k', v') :: aset k v t

/-- Key removal from an association list (JS `Map.delete`). -/
def adel {α : Type} (k : String) : List (String × α) → List (String × α)
  | [] => []
  | (k', v') :: t => if k' = k then t else (k', v') :: adel k t

/-! ### Cache (backend/cache.js) -/

/-- A cache entry as written by `Cache.set`. -/
structure CacheEntry where
  value : JSValue
  expiresAt : ℕ
  createdAt : ℕ
deriving DecidableEq, Repr

/-- The cache singleton: the backing `Map` plus the hit/miss/set counters. -/
structure CacheState where
  store : List (String × CacheEntry)
  hits : ℕ
  misses : ℕ
  sets : ℕ
deriving DecidableEq, Repr

/-- The empty cache created by the `Cache` constructor. -/
def cacheInit : CacheState := { store := [], hits := 0, misses := 0, sets := 0 }

/-- `Cache._getRandomTTL`: `minMs + Math.floor(random * (maxMs - minMs + 1))`,
with the `Math.random()` draw `q` passed in explicitly. -/
def getRandomTTLms (q : ℚ) : ℤ :=
  (TTL_MIN * 1000 : ℤ) + ⌊q * ((TTL_MAX * 1000 - TTL_MIN * 1000 + 1 : ℕ) : ℚ)⌋

/-- `Cache.set`: store `\x7bvalue, expiresAt = now + ttl, createdAt = now\x7d` and
increment the `sets` counter. -/
def cacheSet (now : ℕ) (q : ℚ) (k : String) (v : JSValue) (c : CacheState) : CacheState :=
  { c with store := aset k ⟨v, now + (getRandomTTLms q).toNat, now⟩ c.store,
           sets := c.sets + 1 }

/-- The read part of `Cache.get`: the stored value if the key is present and
not expired (`Date.now() > entry.expiresAt` is the miss test, so an entry
whose `expiresAt` equals `now` is still served). -/
def lookupFresh (now : ℕ) (k : String) (store : List (String × CacheEntry)) : Option JSValue :=
  match afind k store with
  | none => none
  | some e => if e.expiresAt < now then none else some e.value

/-- `Cache.get`: returns the value (or `none` for a miss) and the cache with
the counters updated; a miss due to expiry does not remove the entry. -/
def cacheGet (now : ℕ) (k : String) (c : CacheState) : Option JSValue × CacheState :=
  match afind k c.store with
  | none => (none, { c with misses := c.misses + 1 })
  | some e =>
    if e.expiresAt < now then (none, { c with misses := c.misses + 1 })
    else (some e.value, { c with hits := c.hits + 1 })

/-- `Cache.getRaw`: the raw entry regardless of expiry, no counter update. -/
def cacheGetRaw (k : String) (c : CacheState) : Option CacheEntry :=
  afind k c.store

/-! ### Rate limiter (backend/rateLimiter.js) -/

/-- The rate limiter ledger: API name to the list of request timestamps. -/
abbrev RL : Type := List (String × List ℕ)

/-- `RateLimiter._cleanup`: drop timestamps outside the sliding window
(`now - ts < windowMs`, written additively to stay in `Nat`), creating an
empty ledger for an unknown API name. -/
def rlCleanup (now : ℕ) (api : String) (rl : RL) : RL :=
  match afind api rl with
  | none => aset api [] rl
  | some ts => aset api (ts.filter fun t => decide (now < t + windowMs)) rl

/-- `RateLimiter.canMakeRequest`: cleanup, then admit iff the number of
retained timestamps is below the limit. Returns the mutated ledger too. -/
def canMakeRequest (now : ℕ) (api : String) (limit : ℕ) (rl : RL) : Bool × RL :=
  let rl' := rlCleanup now api rl
  (decide (((afind api rl').getD []).length < limit), rl')

/-- `RateLimiter.recordRequest`: cleanup, then append `now`. -/
def recordRequest (now : ℕ) (api : String) (rl : RL) : RL :=
  let rl' := rlCleanup now api rl
  aset api (((afind api rl').getD []) ++ [now]) rl'

/-- The usage snapshot returned by `RateLimiter.getUsage`. -/
structure Usage where
  used : ℕ
  limit : ℕ
  remaining : ℕ
  resetIn : ℤ
deriving DecidableEq, Repr

/-- `RateLimiter.getUsage`: cleanup, then report
`\x7bused, limit, remaining = max(0, limit - used),
resetIn = max(0, ceil((windowMs - (now - oldest)) / 1000))\x7d`, where `oldest`
is `Math.min(...timestamps)` and defaults to `now` when no timestamp is
retained (`remaining` uses truncated `Nat` subtraction, which is exactly
`max(0, limit - used)`). -/
def getUsage (now : ℕ) (api : String) (limit : ℕ) (rl : RL) : Usage × RL :=
  let rl' := rlCleanup now api rl
  let ts := (afind api rl').getD []
  let oldest : ℕ := match ts with | [] => now | h :: t => t.foldl min h
  ({ used := ts.length, limit := limit, remaining := limit - ts.length,
     resetIn := max 0 ⌈(((windowMs : ℚ) - ((now : ℚ) - (oldest : ℚ))) / 1000)⌉ }, rl')

/-- The timestamps of an API that survive cleanup at time `now` — the
"retained timestamps in the current window" of the specification. -/
def retained (now : ℕ) (api : String) (rl : RL) : List ℕ :=
  ((afind api rl).getD []).filter fun t => decide (now < t + windowMs)

/-! ### System state and environment for the price service -/

/-- The process-wide mutable state threaded through the price service: the
cache and rate limiter singletons, the wall clock, the position in the stream
of `Math.random()` draws, a log of executed sleeps, and a count of dispatched
upstream attempts (used to state "no upstream traffic"). -/
structure SysState where
  cache : CacheState
  rl : RL
  now : ℕ
  randIdx : ℕ
  sleeps : List ℕ
  attempts : ℕ
deriving DecidableEq, Repr

/-- The nondeterministic inputs: the stream of `Math.random()` draws consumed
by `Cache.set`, and the outcome of the `k`-th upstream attempt for each key
(success with a parsed value, or a thrown error message). -/
structure Env where
  rand : ℕ → ℚ
  outcome : String → ℕ → Except String JSValue

/-- `sleep(d)`: advance the clock and log the sleep. -/
def sleepS (d : ℕ) (st : SysState) : SysState :=
  { st with now := st.now + d, sleeps := st.sleeps ++ [d] }

/-! ### fetchWithBackoff (backend/priceService.js) -/

/-- The retry loop of `fetchWithBackoff`, structurally recursive on the
number of remaining iterations (`rem` starts at `maxR`, `attempt` at 0, so
`rem + attempt = maxR` throughout and the loop guard `attempt < maxR` is
`rem > 0`). Each iteration dispatches one attempt; on failure with
`attempt < maxR - 1` it sleeps `BASE_DELAY * 2 ^ attempt` and continues; when
the iterations are exhausted it rethrows the last error. -/
def backoffGo (env : Env) (key : String) (maxR : ℕ) :
    ℕ → ℕ → String → SysState → Except String JSValue × SysState
  | 0, _, lastErr, st => (.error lastErr, st)
  | rem + 1, attempt, _lastErr, st =>
    let st1 := { st with attempts := st.attempts + 1 }
    match env.outcome key attempt with
    | .ok v => (.ok v, st1)
    | .error e =>
      let st2 := if attempt < maxR - 1 then sleepS (BASE_DELAY * 2 ^ attempt) st1 else st1
      backoffGo env key maxR rem (attempt + 1) e st2

/-- `fetchWithBackoff(fetchFn, maxRetries)`. -/
def fetchWithBackoff (env : Env) (key : String) (maxR : ℕ) (st : SysState) :
    Except String JSValue × SysState :=
  backoffGo env key maxR maxR 0 "" st

/-! ### fetchAndCachePrice (backend/priceService.js) -/

/-- The result object of `fetchAndCachePrice`. The JS object omits absent
fields; here `stale` defaults to `false` and the optional fields to `none`. -/
structure FetchResult where
  success : Bool
  key : String
  value : Option JSValue
  stale : Bool
  error : Option String
deriving DecidableEq, Repr

/-- The `try` block of `fetchAndCachePrice`: dispatch on the key — `btc` and
`eurUsd` go straight to backoff, any other key is a Polygon ticker that must
first pass the rate limiter (throwing without retries when denied) and is
recorded against the quota once per outer call. -/
def fetchAndCachePriceTry (env : Env) (key : String) (st : SysState) :
    Except String JSValue × SysState :=
  if key = "btc" then fetchWithBackoff env "btc" MAX_RETRIES st
  else if key = "eurUsd" then fetchWithBackoff env "eurUsd" MAX_RETRIES st
  else
    let p := canMakeRequest st.now "polygon" POLYGON_RATE_LIMIT st.rl
    if p.1 then
      let st1 := { st with rl := recordRequest st.now "polygon" p.2 }
      fetchWithBackoff env key MAX_RETRIES st1
    else (.error "Polygon rate limit exceeded", { st with rl := p.2 })

/-- `fetchAndCachePrice(key)`: on success write through to the cache and
return `\x7bsuccess: true, key, value\x7d`; on any thrown error consult
`cache.getRaw` and return the stale value when an entry exists, a plain
failure otherwise. The `catch` swallows every error, so the function always
returns normally. -/
def fetchAndCachePrice (env : Env) (key : String) (st : SysState) :
    FetchResult × SysState :=
  match fetchAndCachePriceTry env key st with
  | (.ok v, st1) =>
    ({ success := true, key := key, value := some v, stale := false, error := none },
     { st1 with cache := cacheSet st1.now (env.rand st1.randIdx) key v st1.cache,
                randIdx := st1.randIdx + 1 })
  | (.error e, st1) =>
    match cacheGetRaw key st1.cache with
    | some entry =>
      ({ success := false, key := key, value := some entry.value, stale := true,
         error := some e }, st1)
    | none =>
      ({ success := false, key := key, value := none, stale := false, error := some e }, st1)

/-! ### fetchAllPrices (backend/priceService.js) -/

/-- The results object of `fetchAllPrices`. -/
structure AllResults where
  data : List (String × JSValue)
  errors : List String
  successes : List String
  cached : Bool
  partialFlag : Bool
  stale : Bool
deriving DecidableEq, Repr

/-- Processing of the BTC result in `fetchAllPrices`: success adopts the
value; failure records the error, then adopts the stale value (setting the
`stale` flag) or falls back to the scalar `100000`. The `partial` flag is not
touched on this path. -/
def processBtc (r : FetchResult) (acc : AllResults) : AllResults :=
  if r.success then
    { acc with data := aset "btc" (r.value.getD .nullV) acc.data,
               successes := acc.successes ++ ["BTC"] }
  else
    let acc1 := { acc with errors := acc.errors ++ ["BTC: " ++ r.error.getD ""] }
    if r.stale then
      { acc1 with data := aset "btc" (r.value.getD .nullV) acc1.data, stale := true }
    else
      { acc1 with data := aset "btc" (.num 100000) acc1.data }

/-- Processing of the EUR/USD result in `fetchAllPrices`: like BTC but with
fallback `1.05`, and neither the `stale` nor the `partial` flag is touched. -/
def processEur (r : FetchResult) (acc : AllResults) : AllResults :=
  if r.success then
    { acc with data := aset "eurUsd" (r.value.getD .nullV) acc.data,
               successes := acc.successes ++ ["EUR/USD"] }
  else
    let acc1 := { acc with errors := acc.errors ++ ["EUR/USD: " ++ r.error.getD ""] }
    { acc1 with data := aset "eurUsd" (if r.stale then r.value.getD .nullV else .num (21/20))
                          acc1.data }

/-- The per-ticker fallback of the stocks loop:
`ticker === 'MSTR' ? null : \x7b price: 100, avg10d: 100 \x7d`. -/
def stockFallback (t : String) : JSValue :=
  if t = "MSTR" then .nullV else .obj [("price", 100), ("avg10d", 100)]

/-- Processing of one ticker's fetch result in the stocks loop of
`fetchAllPrices`: success adopts the value; failure records the error, adopts
the stale value or the per-ticker fallback, and sets the `partial` flag. -/
def processStock (t : String) (r : FetchResult) (acc : AllResults) : AllResults :=
  if r.success then
    { acc with data := aset t (r.value.getD .nullV) acc.data,
               successes := acc.successes ++ [t] }
  else
    let acc1 := { acc with errors := acc.errors ++ [t ++ ": " ++ r.error.getD ""] }
    let acc2 :=
      if r.stale then { acc1 with data := aset t (r.value.getD .nullV) acc1.data, stale := true }
      else { acc1 with data := aset t (stockFallback t) acc1.data }
    { acc2 with partialFlag := true }

/-- One iteration of the stocks loop: adopt a truthy cached value and skip
the quota check (`continue`), otherwise fetch, process, and then — when usage
is within one call of the limit and this is not the last ticker — sleep 12 s
to let the window slide. -/
def stockIter (env : Env) (t : String) (acc : AllResults) (st : SysState) :
    AllResults × SysState :=
  let g := cacheGet st.now t st.cache
  let st1 := { st with cache := g.2 }
  if truthyOpt g.1 then
    ({ acc with data := aset t (g.1.getD .nullV) acc.data,
                successes := acc.successes ++ [t] }, st1)
  else
    let fr := fetchAndCachePrice env t st1
    let acc1 := processStock t fr.1 acc
    let u := getUsage fr.2.now "polygon" POLYGON_RATE_LIMIT fr.2.rl
    let st2 := { fr.2 with rl := u.2 }
    if POLYGON_RATE_LIMIT - 1 ≤ u.1.used ∧ t ≠ "STRD" then (acc1, sleepS 12000 st2)
    else (acc1, st2)

/-- The sequential tail of `fetchAllPrices` over the Polygon tickers. -/
def stocksLoop (env : Env) : List String → AllResults → SysState → AllResults × SysState
  | [], acc, st => (acc, st)
  | t :: rest, acc, st =>
    let p := stockIter env t acc st
    stocksLoop env rest p.1 p.2

/-- The fixed ticker order of the stocks loop. -/
def stockKeys : List String := ["MSTR", "STRF", "STRC", "STRK", "STRD"]

/-- All seven configured price keys. -/
def allKeys : List String := ["btc", "eurUsd", "MSTR", "STRF", "STRC", "STRK", "STRD"]

/-- `fetchAllPrices()`: read the seven keys from the cache; if every result
is truthy return them immediately as the warm-cache fast path; otherwise
fetch BTC and EUR/USD (the `Promise.all` head, serialised here btc-first as
its effects are on disjoint keys), then walk the Polygon tickers. -/
def fetchAllPrices (env : Env) (st : SysState) : AllResults × SysState :=
  let g1 := cacheGet st.now "btc" st.cache
  let g2 := cacheGet st.now "MSTR" g1.2
  let g3 := cacheGet st.now "eurUsd" g2.2
  let g4 := cacheGet st.now "STRF" g3.2
  let g5 := cacheGet st.now "STRC" g4.2
  let g6 := cacheGet st.now "STRK" g5.2
  let g7 := cacheGet st.now "STRD" g6.2
  let st0 := { st with cache := g7.2 }
  if truthyOpt g1.1 && truthyOpt g2.1 && truthyOpt g3.1 && truthyOpt g4.1 &&
     truthyOpt g5.1 && truthyOpt g6.1 && truthyOpt g7.1 then
    ({ data := [("btc", g1.1.getD .nullV), ("MSTR", g2.1.getD .nullV),
                ("eurUsd", g3.1.getD .nullV), ("STRF", g4.1.getD .nullV),
                ("STRC", g5.1.getD .nullV), ("STRK", g6.1.getD .nullV),
                ("STRD", g7.1.getD .nullV)],
       errors := [],
       successes := ["BTC", "MSTR", "EUR/USD", "STRF", "STRC", "STRK", "STRD"],
       cached := true, partialFlag := false, stale := false }, st0)
  else
    let pb := fetchAndCachePrice env "btc" st0
    let pe := fetchAndCachePrice env "eurUsd" pb.2
    let acc0 : AllResults :=
      { data := [("btc", .nullV), ("eurUsd", .num (21/20))], errors := [], successes := [],
        cached := false, partialFlag := false, stale := false }
    let acc1 := processBtc pb.1 acc0
    let acc2 := processEur pe.1 acc1
    stocksLoop env stockKeys acc2 pe.2

/-! ### The /api/prices/all handler (backend/server.js) -/

/-- The JSON body sent by the handler: the normal payload, or the
`\x7berror, message, retryAfter\x7d` body of the 503 branch. The `metadata`
object (ttls, timestamp, degraded flag) is orthogonal to the claims and
omitted; the `force=true` cache clear happens before `fetchAllPrices` and is
likewise not modelled here. -/
inductive HandlerBody where
  | payload (data : List (String × JSValue)) (errors : List String) (successes : List String)
  | failure (error : String) (message : String) (retryAfter : ℕ)
deriving DecidableEq, Repr

/-- The status and body computation of `GET /api/prices/all`: 207 iff
`results.partial && results.errors.length > 0`, otherwise 200; the `catch`
branch answers 503 with `\x7berror, message, retryAfter: 60\x7d`. -/
def pricesAllHandler (res : Except String AllResults) : ℕ × HandlerBody :=
  match res with
  | .ok r =>
    (if r.partialFlag && !r.errors.isEmpty then 207 else 200,
     .payload r.data r.errors r.successes)
  | .error e => (503, .failure "Service unavailable" e 60)

/-! ### Cache operation sequences (for the TTL invariant) -/

/-- An arbitrary client operation on the cache, with the time of the call and
(for `set`) the `Math.random()` draw it consumes. -/
inductive CacheOp where
  | setOp (now : ℕ) (q : ℚ) (key : String) (v : JSValue)
  | getOp (now : ℕ) (key : String)
  | delOp (key : String)
  | clearOp
deriving DecidableEq, Repr

/-- State effect of one cache operation. -/
def applyOp (c : CacheState) : CacheOp → CacheState
  | .setOp now q k v => cacheSet now q k v c
  | .getOp now k => (cacheGet now k c).2
  | .delOp k => { c with store := adel k c.store }
  | .clearOp => { c with store := [] }

/-- Run a sequence of cache operations. -/
def runOps (c : CacheState) (ops : List CacheOp) : CacheState :=
  ops.foldl applyOp c

/-- A `Math.random()` draw is in `[0, 1)`; only `set` consumes one. -/
def validDraw : CacheOp → Prop
  | .setOp _ q _ _ => 0 ≤ q ∧ q < 1
  | _ => True

/-! ### Concrete states and environments used by witnesses and
counterexamples -/

/-- An environment in which every upstream attempt fails. -/
def envFailAll : Env := { rand := fun _ => 0, outcome := fun _ _ => .error "boom" }

/-- An environment in which every upstream attempt succeeds with the
number 50. -/
def envOkAll : Env := { rand := fun _ => 0, outcome := fun _ _ => .ok (.num 50) }

/-- The initial process state: empty cache, empty ledger, clock at 0. -/
def st0 : SysState :=
  { cache := cacheInit, rl := [], now := 0, randIdx := 0, sleeps := [], attempts := 0 }

/-- A cache entry that is fresh until far in the future. -/
def freshE (v : JSValue) : CacheEntry :=
  { value := v, expiresAt := 1000000000, createdAt := 0 }

/-- A warm state: all seven keys fresh and truthy at `now = 1000`. -/
def stWarm : SysState :=
  { cache := { store := [("btc", freshE (.num 100000)), ("MSTR", freshE (.obj [("price", 420)])),
               ("eurUsd", freshE (.num 2)), ("STRF", freshE (.obj [("price", 100)])),
               ("STRC", freshE (.obj [("price", 100)])), ("STRK", freshE (.obj [("price", 100)])),
               ("STRD", freshE (.obj [("price", 100)]))],
               hits := 0, misses := 0, sets := 0 },
    rl := [], now := 1000, randIdx := 0, sleeps := [], attempts := 0 }

/-- Like `stWarm` but the fresh `btc` entry stores the falsy number 0. -/
def stWarmFalsy : SysState :=
  { stWarm with cache := { stWarm.cache with
      store := aset "btc" (freshE (.num 0)) stWarm.cache.store } }

/-- Like `stWarm` but the fresh `MSTR` entry stores the falsy number 0. -/
def stMstrFalsy : SysState :=
  { stWarm with cache := { stWarm.cache with
      store := aset "MSTR" (freshE (.num 0)) stWarm.cache.store } }

/-- Like `stWarm` but the `btc` entry is expired (`expiresAt = 500 < now`). -/
def stBtcExpired : SysState :=
  { stWarm with cache := { stWarm.cache with
      store := aset "btc" ⟨.num 95000, 500, 0⟩ stWarm.cache.store } }

/-- An environment in which the BTC upstream always fails and every other
upstream succeeds. -/
def envBtcDown : Env :=
  { rand := fun _ => 0,
    outcome := fun k _ => if k = "btc" then .error "down" else .ok (.num 1) }

/-- An environment in which the crypto and FX upstreams succeed and every
Polygon request fails. -/
def envPolyDown : Env :=
  { rand := fun _ => 0,
    outcome := fun k _ => if k = "btc" || k = "eurUsd" then .ok (.num 1) else .error "down" }

end BtcDash

namespace BtcDash

/-! ## Association-list lemmas -/

theorem afind_aset_self {α : Type} (k : String) (v : α) (l : List (String × α)) :
    afind k (aset k v l) = some v := by
  induction l with
  | nil => simp [aset, afind]
  | cons h t ih =>
    obtain ⟨k', v'⟩ := h
    by_cases hk : k' = k <;> simp [aset, afind, hk, ih]

theorem afind_aset_ne {α : Type} {k k' : String} (h : k' ≠ k) (v : α)
    (l : List (String × α)) : afind k (aset k' v l) = afind k l := by
  have h2 : k ≠ k' := Ne.symm h
  induction l with
  | nil => simp [aset, afind, h]
  | cons p t ih =>
    obtain ⟨a, b⟩ := p
    by_cases ha : a = k'
    · subst ha
      simp [aset, afind, h]
    · by_cases hak : a = k <;> simp [aset, afind, ha, hak, ih, h2]

theorem mem_aset {α : Type} (p : String × α) (k : String) (v : α)
    (l : List (String × α)) (hp : p ∈ aset k v l) : p = (k, v) ∨ p ∈ l := by
  induction l with
  | nil => simpa [aset] using hp
  | cons q t ih =>
    obtain ⟨a, b⟩ := q
    by_cases ha : a = k
    · simp [aset, ha] at hp
      rcases hp with h | h
      · exact Or.inl (by simp [h])
      · exact Or.inr (by simp [h])
    · simp [aset, ha] at hp
      rcases hp with h | h
      · exact Or.inr (by simp [h])
      · rcases ih h with h' | h'
        · exact Or.inl h'
        · exact Or.inr (by simp [h'])

theorem mem_adel {α : Type} (p : String × α) (k : String)
    (l : List (String × α)) (hp : p ∈ adel k l) : p ∈ l := by
  induction l with
  | nil => simpa [adel] using hp
  | cons q t ih =>
    obtain ⟨a, b⟩ := q
    by_cases ha : a = k
    · simp [adel, ha] at hp
      simp [hp]
    · simp [adel, ha] at hp
      rcases hp with h | h
      · simp [h]
      · simp [ih h]

/-! ## Cache read lemmas -/

@[simp] theorem cacheGet_fst (now : ℕ) (k : String) (c : CacheState) :
    (cacheGet now k c).1 = lookupFresh now k c.store := by
  unfold cacheGet lookupFresh
  cases h : afind k c.store with
  | none => simp
  | some e => by_cases he : e.expiresAt < now <;> simp [he]

@[simp] theorem cacheGet_store (now : ℕ) (k : String) (c : CacheState) :
    (cacheGet now k c).2.store = c.store := by
  unfold cacheGet
  cases h : afind k c.store with
  | none => simp
  | some e => by_cases he : e.expiresAt < now <;> simp [he]

@[simp] theorem cacheGet_sets (now : ℕ) (k : String) (c : CacheState) :
    (cacheGet now k c).2.sets = c.sets := by
  unfold cacheGet
  cases h : afind k c.store with
  | none => simp
  | some e => by_cases he : e.expiresAt < now <;> simp [he]

theorem cacheGet_hit {now : ℕ} {k : String} {c : CacheState} {v : JSValue}
    (h : lookupFresh now k c.store = some v) :
    cacheGet now k c = (some v, { c with hits := c.hits + 1 }) := by
  unfold lookupFresh at h
  unfold cacheGet
  cases hf : afind k c.store with
  | none => rw [hf] at h; simp at h
  | some e =>
    rw [hf] at h
    by_cases he : e.expiresAt < now
    · simp [he] at h
    · simp only [he, if_false, if_neg, Option.some.injEq] at h
      simp [he, h]

theorem cacheGet_miss {now : ℕ} {k : String} {c : CacheState}
    (h : lookupFresh now k c.store = none) :
    cacheGet now k c = (none, { c with misses := c.misses + 1 }) := by
  unfold lookupFresh at h
  unfold cacheGet
  cases hf : afind k c.store with
  | none => simp
  | some e =>
    rw [hf] at h
    by_cases he : e.expiresAt < now
    · simp [he]
    · simp [he] at h

/-! ## Rate-limiter lemmas -/

theorem afind_cleanup (now : ℕ) (api : String) (rl : RL) :
    (afind api (rlCleanup now api rl)).getD [] = retained now api rl := by
  unfold rlCleanup retained
  cases h : afind api rl with
  | none => simp [h, afind_aset_self]
  | some ts => simp [h, afind_aset_self]

theorem canMakeRequest_fst (now : ℕ) (api : String) (limit : ℕ) (rl : RL) :
    (canMakeRequest now api limit rl).1 =
      decide ((retained now api rl).length < limit) := by
  unfold canMakeRequest
  simp only [afind_cleanup]

theorem retained_aset_self (now : ℕ) (api : String) (l : List ℕ) (rl : RL) :
    retained now api (aset api l rl) =
      l.filter (fun t => decide (now < t + windowMs)) := by
  unfold retained
  rw [afind_aset_self]
  simp

theorem retained_filter_self (now : ℕ) (api : String) (rl : RL) :
    (retained now api rl).filter (fun t => decide (now < t + windowMs)) =
      retained now api rl := by
  unfold retained
  rw [List.filter_filter]
  simp

theorem retained_recordRequest (now : ℕ) (api : String) (rl : RL) :
    retained now api (recordRequest now api rl) = retained now api rl ++ [now] := by
  have hw : now < now + windowMs := by unfold windowMs RATE_LIMIT_WINDOW; omega
  unfold recordRequest
  simp only [afind_cleanup, retained_aset_self]
  rw [List.filter_append, retained_filter_self]
  simp [List.filter, hw]

/-! ## C4: quota boundary -/

/-- C4: for every upstream and declared limit L, when exactly L-1 timestamps
are retained in the current window the L-th request is admitted
(`canMakeRequest` returns true, and recording it makes the next check deny),
and when L timestamps are retained the (L+1)-th request is denied. -/
theorem claim4_quota_boundary (now : ℕ) (api : String) (L : ℕ) (rl : RL) :
    ((retained now api rl).length + 1 = L →
      (canMakeRequest now api L rl).1 = true ∧
      (canMakeRequest now api L (recordRequest now api rl)).1 = false) ∧
    ((retained now api rl).length = L →
      (canMakeRequest now api L rl).1 = false) := by
  constructor
  · intro h
    constructor
    · rw [canMakeRequest_fst]
      simp only [decide_eq_true_eq]
      omega
    · rw [canMakeRequest_fst, retained_recordRequest]
      simp only [decide_eq_false_iff_not, List.length_append, List.length_cons,
        List.length_nil]
      omega
  · intro h
    rw [canMakeRequest_fst]
    simp only [decide_eq_false_iff_not]
    omega

/-- Witness for C4 at a concrete ledger with 4 retained timestamps and
limit 5. -/
theorem claim4_witness :
    (canMakeRequest 1000 "polygon" 5 [("polygon", [100, 200, 300, 400])]).1 = true ∧
    (canMakeRequest 1000 "polygon" 5
      (recordRequest 1000 "polygon" [("polygon", [100, 200, 300, 400])])).1 = false :=
  (claim4_quota_boundary 1000 "polygon" 5 [("polygon", [100, 200, 300, 400])]).1 (by decide)

/-! ## C5: TTL bounds invariant -/

theorem getRandomTTLms_bounds {q : ℚ} (h0 : 0 ≤ q) (h1 : q < 1) :
    (TTL_MIN * 1000 : ℤ) ≤ getRandomTTLms q ∧ getRandomTTLms q ≤ TTL_MAX * 1000 := by
  unfold getRandomTTLms
  have hc : ((TTL_MAX * 1000 - TTL_MIN * 1000 + 1 : ℕ) : ℚ) = 300001 := by
    norm_num [TTL_MIN, TTL_MAX]
  rw [hc]
  have hlo : (0 : ℤ) ≤ ⌊q * 300001⌋ := Int.floor_nonneg.mpr (by positivity)
  have hhi : ⌊q * 300001⌋ < 300001 := by
    apply Int.floor_lt.mpr
    push_cast
    nlinarith
  norm_num [TTL_MIN, TTL_MAX]
  omega

theorem ttlOK_applyOp (c : CacheState) (op : CacheOp)
    (hc : ∀ p ∈ c.store, TTL_MIN * 1000 ≤ p.2.expiresAt - p.2.createdAt ∧
            p.2.expiresAt - p.2.createdAt ≤ TTL_MAX * 1000)
    (hop : validDraw op) :
    ∀ p ∈ (applyOp c op).store,
      TTL_MIN * 1000 ≤ p.2.expiresAt - p.2.createdAt ∧
      p.2.expiresAt - p.2.createdAt ≤ TTL_MAX * 1000 := by
  cases op with
  | setOp now q k v =>
    intro p hp
    obtain ⟨h0, h1⟩ := hop
    have hp' : p = (k, (⟨v, now + (getRandomTTLms q).toNat, now⟩ : CacheEntry)) ∨
        p ∈ c.store :=
      mem_aset p k ⟨v, now + (getRandomTTLms q).toNat, now⟩ c.store
        (by simpa [applyOp, cacheSet] using hp)
    rcases hp' with h | h
    · subst h
      have hb := getRandomTTLms_bounds h0 h1
      simp only []
      omega
    · exact hc p h
  | getOp now k =>
    intro p hp
    exact hc p (by simpa [applyOp, cacheGet_store] using hp)
  | delOp k =>
    intro p hp
    exact hc p (mem_adel p k c.store (by simpa [applyOp] using hp))
  | clearOp =>
    intro p hp
    simp [applyOp] at hp

theorem ttlOK_runOps (ops : List CacheOp) :
    ∀ c : CacheState,
      (∀ p ∈ c.store, TTL_MIN * 1000 ≤ p.2.expiresAt - p.2.createdAt ∧
         p.2.expiresAt - p.2.createdAt ≤ TTL_MAX * 1000) →
      (∀ op ∈ ops, validDraw op) →
      ∀ p ∈ (runOps c ops).store,
        TTL_MIN * 1000 ≤ p.2.expiresAt - p.2.createdAt ∧
        p.2.expiresAt - p.2.createdAt ≤ TTL_MAX * 1000 := by
  induction ops with
  | nil => intro c hc _; exact hc
  | cons op rest ih =>
    intro c hc hops
    have h1 := ttlOK_applyOp c op hc (hops op (by simp))
    exact ih (applyOp c op) h1 (fun o ho => hops o (by simp [ho]))

/-- C5: after any sequence of set/get/delete/clear operations starting from
the empty cache, every entry present in the store satisfies
`expiresAt - createdAt ∈ [TTL_MIN, TTL_MAX]` seconds (inclusive), the TTL of
each write being determined by that write's own `Math.random()` draw. -/
theorem claim5_ttl_bounds (ops : List CacheOp) (hops : ∀ op ∈ ops, validDraw op) :
    ∀ p ∈ (runOps cacheInit ops).store,
      TTL_MIN * 1000 ≤ p.2.expiresAt - p.2.createdAt ∧
      p.2.expiresAt - p.2.createdAt ≤ TTL_MAX * 1000 :=
  ttlOK_runOps ops cacheInit (by simp [cacheInit]) hops

theorem getRandomTTLms_zero : getRandomTTLms 0 = 300000 := by
  norm_num [getRandomTTLms, TTL_MIN, TTL_MAX]

/-- Witness for C5 on a concrete operation sequence ending in a write with
draw 0 at time 2000 (TTL 300000 ms, entry `(2000, 302000)`). -/
theorem claim5_witness :
    TTL_MIN * 1000 ≤ 302000 - 2000 ∧ 302000 - 2000 ≤ TTL_MAX * 1000 :=
  claim5_ttl_bounds
    [CacheOp.setOp 1000 0 "btc" (.num 5), CacheOp.getOp 1000 "btc",
     CacheOp.clearOp, CacheOp.setOp 2000 0 "x" (.num 3)]
    (by
      intro op hop
      fin_cases hop <;> norm_num [validDraw])
    ("x", ⟨.num 3, 302000, 2000⟩)
    (by
      have hst : (runOps cacheInit
          [CacheOp.setOp 1000 0 "btc" (.num 5), CacheOp.getOp 1000 "btc",
           CacheOp.clearOp, CacheOp.setOp 2000 0 "x" (.num 3)]).store =
          [("x", ⟨.num 3, 302000, 2000⟩)] := by
        simp [runOps, applyOp, cacheSet, cacheInit, aset, getRandomTTLms_zero,
          cacheGet, afind]
      rw [hst]
      simp)

/-! ## C7: usage snapshot -/

/-- C7 (amended): `getUsage` reports `used` equal to the number of retained
timestamps, `remaining = max(0, limit - used)`, and, when at least one
timestamp is retained, `resetIn` equal to the (rounded-up) number of seconds
until the oldest retained timestamp leaves the window; when no timestamp is
retained, `resetIn` is the full window `RATE_LIMIT_WINDOW` (60), not 0. -/
theorem claim7_usage_snapshot (now : ℕ) (api : String) (L : ℕ) (rl : RL) :
    ((getUsage now api L rl).1.used = (retained now api rl).length) ∧
    (((getUsage now api L rl).1.remaining : ℤ) =
      max 0 ((L : ℤ) - (retained now api rl).length)) ∧
    ((getUsage now api L rl).1.limit = L) ∧
    (∀ h : ℕ, ∀ t : List ℕ, retained now api rl = h :: t →
      (getUsage now api L rl).1.resetIn =
        max 0 ⌈((((t.foldl min h : ℕ) : ℚ) + (windowMs : ℚ) - (now : ℚ)) / 1000)⌉) ∧
    (retained now api rl = [] →
      (getUsage now api L rl).1.resetIn = (RATE_LIMIT_WINDOW : ℤ)) := by
  refine ⟨?_, ?_, ?_, ?_, ?_⟩
  · unfold getUsage
    simp only [afind_cleanup]
  · unfold getUsage
    simp only [afind_cleanup]
    omega
  · rfl
  · intro h t hret
    unfold getUsage
    simp only [afind_cleanup, hret]
    congr 1
    congr 1
    ring
  · intro hret
    unfold getUsage
    simp only [afind_cleanup, hret, sub_self]
    norm_num [windowMs, RATE_LIMIT_WINDOW]

/-- Witness for C7: a ledger whose single timestamp has left the window, so
nothing is retained and `resetIn` is the full window. -/
theorem claim7_witness :
    (getUsage 100000 "polygon" 5 [("polygon", [1])]).1.resetIn =
      (RATE_LIMIT_WINDOW : ℤ) :=
  (claim7_usage_snapshot 100000 "polygon" 5 [("polygon", [1])]).2.2.2.2 (by decide)

/-- Counterexample for C7 as stated: with no retained timestamp, `getUsage`
reports `resetIn = 60` (the full window), not 0 as the claim asserts. -/
theorem claim7_cx :
    (getUsage 1000000 "polygon" 5 []).1.resetIn = 60 ∧
    ¬ (getUsage 1000000 "polygon" 5 []).1.resetIn = 0 := by
  have h : (getUsage 1000000 "polygon" 5 []).1.resetIn = 60 := by
    unfold getUsage
    simp [rlCleanup, afind, aset]
    norm_num [windowMs, RATE_LIMIT_WINDOW]
  exact ⟨h, by rw [h]; decide⟩

/-! ## C8: expiry boundary -/

/-- C8 (amended): an entry whose `expiresAt` equals the current time is still
a cache hit — `get` returns the value and increments `hits`, not `misses`
(the miss test is the strict `Date.now() > expiresAt`); a miss happens
exactly when `now` is strictly past `expiresAt`; `getRaw` returns the entry
in both cases. -/
theorem claim8_expiry_boundary (now : ℕ) (k : String) (c : CacheState)
    (e : CacheEntry) (hf : afind k c.store = some e) :
    (e.expiresAt = now →
      (cacheGet now k c).1 = some e.value ∧
      (cacheGet now k c).2.hits = c.hits + 1 ∧
      (cacheGet now k c).2.misses = c.misses) ∧
    (e.expiresAt < now →
      (cacheGet now k c).1 = none ∧
      (cacheGet now k c).2.misses = c.misses + 1) ∧
    cacheGetRaw k c = some e := by
  unfold cacheGet cacheGetRaw
  rw [hf]
  refine ⟨?_, ?_, rfl⟩
  · intro he
    have hlt : ¬ e.expiresAt < now := by omega
    simp [hlt]
  · intro he
    simp [he]

/-- Witness for C8 at a concrete entry with `expiresAt = now = 1000`. -/
theorem claim8_witness :
    (cacheGet 1000 "btc"
      { store := [("btc", ⟨.num 5, 1000, 400⟩)], hits := 0, misses := 0, sets := 0 }).1 =
      some (JSValue.num 5) ∧
    (cacheGet 1000 "btc"
      { store := [("btc", ⟨.num 5, 1000, 400⟩)], hits := 0, misses := 0, sets := 0 }).2.hits =
      0 + 1 ∧
    (cacheGet 1000 "btc"
      { store := [("btc", ⟨.num 5, 1000, 400⟩)], hits := 0, misses := 0, sets := 0 }).2.misses =
      0 :=
  (claim8_expiry_boundary 1000 "btc"
    { store := [("btc", ⟨.num 5, 1000, 400⟩)], hits := 0, misses := 0, sets := 0 }
    ⟨.num 5, 1000, 400⟩ (by decide)).1 (by decide)

/-- Counterexample for C8 as stated: at `expiresAt = now` exactly, `get`
returns the stored value as a hit (misses counter untouched), not a miss. -/
theorem claim8_cx :
    (cacheGet 1000 "btc"
      { store := [("btc", ⟨.num 7, 1000, 0⟩)], hits := 0, misses := 0, sets := 0 }).1 =
      some (JSValue.num 7) ∧
    (cacheGet 1000 "btc"
      { store := [("btc", ⟨.num 7, 1000, 0⟩)], hits := 0, misses := 0, sets := 0 }).2.misses = 0 ∧
    (cacheGet 1000 "btc"
      { store := [("btc", ⟨.num 7, 1000, 0⟩)], hits := 0, misses := 0, sets := 0 }).2.hits = 1 ∧
    cacheGetRaw "btc"
      { store := [("btc", ⟨.num 7, 1000, 0⟩)], hits := 0, misses := 0, sets := 0 } =
      some ⟨.num 7, 1000, 0⟩ := by
  refine ⟨?_, ?_, ?_, ?_⟩ <;> decide

/-! ## C3: exponential backoff schedule -/

@[simp] theorem sleepS_attempts (d : ℕ) (st : SysState) :
    (sleepS d st).attempts = st.attempts := rfl

@[simp] theorem sleepS_cache (d : ℕ) (st : SysState) :
    (sleepS d st).cache = st.cache := rfl

@[simp] theorem sleepS_rl (d : ℕ) (st : SysState) :
    (sleepS d st).rl = st.rl := rfl

@[simp] theorem sleepS_randIdx (d : ℕ) (st : SysState) :
    (sleepS d st).randIdx = st.randIdx := rfl

theorem backoffGo_attempts_le (env : Env) (key : String) (maxR : ℕ) :
    ∀ rem attempt le st,
      (backoffGo env key maxR rem attempt le st).2.attempts ≤ st.attempts + rem := by
  intro rem
  induction rem with
  | zero => intro attempt le st; simp [backoffGo]
  | succ n ih =>
    intro attempt le st
    simp only [backoffGo]
    cases h : env.outcome key attempt with
    | ok v => simp [h]
    | error e =>
      simp only [h]
      split
      · have h2 := ih (attempt + 1) e (sleepS (BASE_DELAY * 2 ^ attempt)
          { st with attempts := st.attempts + 1 })
        simp at h2
        omega
      · have h2 := ih (attempt + 1) e { st with attempts := st.attempts + 1 }
        simp at h2
        omega

/-- C3 (amended): for every fetch function and every pattern of failures,
`fetchWithBackoff` under the reference configuration (5 attempts, 16 s base)
runs attempt 0 immediately; after a failed attempt k with k+1 < MAX_RETRIES
it sleeps exactly `BASE_DELAY * 2 ^ k`; it makes at most MAX_RETRIES
attempts; after 5 consecutive failures it gives up raising the last error,
having slept 16, 32, 64 and 128 s between its five attempts — four sleeps in
total, so a 256 s delay never occurs. -/
theorem claim3_backoff_schedule (env : Env) (key : String) (st : SysState)
    (e : ℕ → String) :
    ((∀ k, k < MAX_RETRIES → env.outcome key k = .error (e k)) →
      (fetchWithBackoff env key MAX_RETRIES st).1 = .error (e 4) ∧
      (fetchWithBackoff env key MAX_RETRIES st).2.sleeps =
        st.sleeps ++ [16000, 32000, 64000, 128000] ∧
      (fetchWithBackoff env key MAX_RETRIES st).2.attempts =
        st.attempts + MAX_RETRIES) ∧
    (∀ s v, s < MAX_RETRIES → (∀ k, k < s → env.outcome key k = .error (e k)) →
      env.outcome key s = .ok v →
      (fetchWithBackoff env key MAX_RETRIES st).1 = .ok v ∧
      (fetchWithBackoff env key MAX_RETRIES st).2.sleeps =
        st.sleeps ++ (List.range s).map (fun k => BASE_DELAY * 2 ^ k) ∧
      (fetchWithBackoff env key MAX_RETRIES st).2.attempts = st.attempts + (s + 1)) ∧
    (∀ m, (fetchWithBackoff env key m st).2.attempts ≤ st.attempts + m) := by
  refine ⟨?_, ?_, ?_⟩
  · intro hf
    have h0 := hf 0 (by norm_num [MAX_RETRIES])
    have h1 := hf 1 (by norm_num [MAX_RETRIES])
    have h2 := hf 2 (by norm_num [MAX_RETRIES])
    have h3 := hf 3 (by norm_num [MAX_RETRIES])
    have h4 := hf 4 (by norm_num [MAX_RETRIES])
    refine ⟨?_, ?_, ?_⟩ <;>
      simp [fetchWithBackoff, MAX_RETRIES, backoffGo, h0, h1, h2, h3, h4, sleepS,
        BASE_DELAY]
  · intro s v hs hfs ho
    have hs5 : s < 5 := hs
    interval_cases s <;>
      refine ⟨?_, ?_, ?_⟩ <;>
        simp [fetchWithBackoff, MAX_RETRIES, backoffGo, hfs, ho, sleepS, BASE_DELAY] <;>
        decide
  · intro m
    exact backoffGo_attempts_le env key m m 0 "" st

/-- Witness for C3: the all-fail schedule evaluated in the all-failing
environment from the empty state. -/
theorem claim3_witness :
    (fetchWithBackoff envFailAll "btc" MAX_RETRIES st0).1 = .error "boom" ∧
    (fetchWithBackoff envFailAll "btc" MAX_RETRIES st0).2.sleeps =
      st0.sleeps ++ [16000, 32000, 64000, 128000] ∧
    (fetchWithBackoff envFailAll "btc" MAX_RETRIES st0).2.attempts =
      st0.attempts + MAX_RETRIES :=
  (claim3_backoff_schedule envFailAll "btc" st0 (fun _ => "boom")).1
    (fun _ _ => rfl)

/-- Counterexample for C3 as stated: after five consecutive failures the
executed sleeps are 16, 32, 64 and 128 s — the claimed fifth 256 s delay
never happens. -/
theorem claim3_cx :
    (fetchWithBackoff envFailAll "btc" MAX_RETRIES st0).2.sleeps =
      [16000, 32000, 64000, 128000] ∧
    (fetchWithBackoff envFailAll "btc" MAX_RETRIES st0).2.sleeps ≠
      [16000, 32000, 64000, 128000, 256000] ∧
    (fetchWithBackoff envFailAll "btc" MAX_RETRIES st0).1 = .error "boom" := by
  refine ⟨by decide, by decide, rfl⟩

/-! ## C2: HTTP status codes of /api/prices/all -/

/-- C2 (amended): the handler answers 200 when the errors list is empty,
207 exactly when `partial` is set and the errors list is non-empty, and 503
with body `\x7berror, message, retryAfter\x7d` exactly when the handler itself
raises; the ok branch only ever produces 200 or 207. However, a result with
a non-empty errors list but `partial = false` (which `fetchAllPrices`
produces when only the crypto or FX key fails) is sent with status 200. -/
theorem claim2_status_codes (r : AllResults) (e : String) :
    (r.errors = [] → (pricesAllHandler (.ok r)).1 = 200) ∧
    ((pricesAllHandler (.ok r)).1 = 207 ↔ (r.partialFlag = true ∧ r.errors ≠ [])) ∧
    (pricesAllHandler (.error e) = (503, .failure "Service unavailable" e 60)) ∧
    ((pricesAllHandler (.ok r)).1 = 200 ∨ (pricesAllHandler (.ok r)).1 = 207) := by
  have hiff : ((r.partialFlag && !r.errors.isEmpty) = true) ↔
      (r.partialFlag = true ∧ r.errors ≠ []) := by
    simp
  refine ⟨?_, ?_, rfl, ?_⟩
  · intro he
    show (if r.partialFlag && !r.errors.isEmpty then (207 : ℕ) else 200) = 200
    simp [he]
  · show (if r.partialFlag && !r.errors.isEmpty then (207 : ℕ) else 200) = 207 ↔ _
    by_cases h : (r.partialFlag && !r.errors.isEmpty) = true
    · rw [if_pos h]
      simp [hiff.mp h]
    · rw [if_neg h]
      constructor
      · intro hh
        norm_num at hh
      · intro hP
        exact absurd (hiff.mpr hP) h
  · show (if r.partialFlag && !r.errors.isEmpty then (207 : ℕ) else 200) = 200 ∨
      (if r.partialFlag && !r.errors.isEmpty then (207 : ℕ) else 200) = 207
    by_cases h : (r.partialFlag && !r.errors.isEmpty) = true
    · right
      rw [if_pos h]
    · left
      rw [if_neg h]

/-- Witness for C2 at a concrete error-free result. -/
theorem claim2_witness :
    (pricesAllHandler (.ok
      { data := [], errors := [], successes := [], cached := true,
        partialFlag := false, stale := false })).1 = 200 :=
  (claim2_status_codes
    { data := [], errors := [], successes := [], cached := true,
      partialFlag := false, stale := false } "kaput").1 rfl

/-- Counterexample for C2 as stated: a run in which only BTC fails (served
stale) yields a non-empty errors list with `partial = false`, and the
handler sends that response with status 200 — so "non-empty errors is never
sent with 200" is false on the code. -/
theorem claim2_cx :
    (pricesAllHandler (.ok (fetchAllPrices envBtcDown stBtcExpired).1)).1 = 200 ∧
    (fetchAllPrices envBtcDown stBtcExpired).1.errors = ["BTC: down"] ∧
    (fetchAllPrices envBtcDown stBtcExpired).1.partialFlag = false := by
  refine ⟨rfl, rfl, rfl⟩

/-! ## State-preservation lemmas for the fetch pipeline -/

theorem backoffGo_state (env : Env) (key : String) (maxR : ℕ) :
    ∀ rem attempt le st,
      (backoffGo env key maxR rem attempt le st).2.cache = st.cache ∧
      (backoffGo env key maxR rem attempt le st).2.rl = st.rl ∧
      (backoffGo env key maxR rem attempt le st).2.randIdx = st.randIdx := by
  intro rem
  induction rem with
  | zero => intro attempt le st; simp [backoffGo]
  | succ n ih =>
    intro attempt le st
    simp only [backoffGo]
    cases h : env.outcome key attempt with
    | ok v => simp [h]
    | error e =>
      simp only [h]
      split
      · obtain ⟨ha, hb, hc⟩ := ih (attempt + 1) e (sleepS (BASE_DELAY * 2 ^ attempt)
          { st with attempts := st.attempts + 1 })
        rw [ha, hb, hc]
        simp
      · obtain ⟨ha, hb, hc⟩ := ih (attempt + 1) e { st with attempts := st.attempts + 1 }
        rw [ha, hb, hc]
        simp

theorem tryFetch_cache (env : Env) (key : String) (st : SysState) :
    (fetchAndCachePriceTry env key st).2.cache = st.cache := by
  unfold fetchAndCachePriceTry
  by_cases h1 : key = "btc"
  · simp only [h1, if_true, if_pos]
    exact (backoffGo_state env "btc" MAX_RETRIES MAX_RETRIES 0 "" st).1
  · by_cases h2 : key = "eurUsd"
    · simp only [h1, h2, if_false, if_true, if_pos, if_neg, not_false_iff]
      exact (backoffGo_state env "eurUsd" MAX_RETRIES MAX_RETRIES 0 "" st).1
    · simp only [h1, h2, if_false, if_neg, not_false_iff]
      split
      · exact (backoffGo_state env key MAX_RETRIES MAX_RETRIES 0 "" _).1
      · rfl

theorem tryFetch_rl_noquota (env : Env) (st : SysState) (key : String)
    (h : key = "btc" ∨ key = "eurUsd") :
    (fetchAndCachePriceTry env key st).2.rl = st.rl := by
  rcases h with h | h <;> subst h
  · exact (backoffGo_state env "btc" MAX_RETRIES MAX_RETRIES 0 "" st).2.1
  · exact (backoffGo_state env "eurUsd" MAX_RETRIES MAX_RETRIES 0 "" st).2.1

theorem fetchPrice_store_ne (env : Env) (key k : String) (st : SysState)
    (h : k ≠ key) :
    afind k (fetchAndCachePrice env key st).2.cache.store =
      afind k st.cache.store := by
  unfold fetchAndCachePrice
  rcases hT : fetchAndCachePriceTry env key st with ⟨res, st1⟩
  have hc : st1.cache = st.cache := by
    have hx := tryFetch_cache env key st
    rw [hT] at hx
    exact hx
  cases res with
  | ok v =>
    simp only [cacheSet]
    rw [afind_aset_ne (Ne.symm h), hc]
  | error e =>
    cases hg : cacheGetRaw key st1.cache <;> simp only [hg] <;> rw [hc]

theorem fetchPrice_rl_noquota (env : Env) (st : SysState) (key : String)
    (h : key = "btc" ∨ key = "eurUsd") :
    (fetchAndCachePrice env key st).2.rl = st.rl := by
  unfold fetchAndCachePrice
  rcases hT : fetchAndCachePriceTry env key st with ⟨res, st1⟩
  have hr : st1.rl = st.rl := by
    have hx := tryFetch_rl_noquota env st key h
    rw [hT] at hx
    exact hx
  cases res with
  | ok v => exact hr
  | error e =>
    cases hg : cacheGetRaw key st1.cache <;> simp only [hg] <;> exact hr

theorem truthyOpt_lookupFresh_falsy (n : ℕ) (k : String)
    (s : List (String × CacheEntry)) (e : CacheEntry)
    (hf : afind k s = some e) (hv : truthy e.value = false) :
    truthyOpt (lookupFresh n k s) = false := by
  unfold lookupFresh
  rw [hf]
  by_cases hx : e.expiresAt < n
  · simp [hx, truthyOpt]
  · simp [hx, truthyOpt, hv]

/-! ## Lemmas on the result-processing steps -/

theorem processStock_cached (t : String) (r : FetchResult) (acc : AllResults) :
    (processStock t r acc).cached = acc.cached := by
  unfold processStock
  split_ifs <;> rfl

theorem processStock_data_ne (t : String) (r : FetchResult) (acc : AllResults)
    (k : String) (h : k ≠ t) :
    afind k (processStock t r acc).data = afind k acc.data := by
  unfold processStock
  split_ifs <;> simp [afind_aset_ne (Ne.symm h)]

theorem processStock_data_self (t : String) (r : FetchResult) (acc : AllResults) :
    (afind t (processStock t r acc).data).isSome = true := by
  unfold processStock
  split_ifs <;> simp [afind_aset_self]

theorem processStock_successes (t : String) (r : FetchResult) (acc : AllResults) :
    ∃ l, (processStock t r acc).successes = acc.successes ++ l := by
  unfold processStock
  split_ifs
  · exact ⟨[t], rfl⟩
  · exact ⟨[], by simp⟩
  · exact ⟨[], by simp⟩

theorem stockIter_cached (env : Env) (t : String) (acc : AllResults) (st : SysState) :
    (stockIter env t acc st).1.cached = acc.cached := by
  simp only [stockIter]
  split
  · rfl
  · split <;> exact processStock_cached t _ acc

theorem stockIter_data_ne (env : Env) (t : String) (acc : AllResults) (st : SysState)
    (k : String) (h : k ≠ t) :
    afind k (stockIter env t acc st).1.data = afind k acc.data := by
  simp only [stockIter]
  split
  · simp [afind_aset_ne (Ne.symm h)]
  · split <;> exact processStock_data_ne t _ acc k h

theorem stockIter_data_self (env : Env) (t : String) (acc : AllResults) (st : SysState) :
    (afind t (stockIter env t acc st).1.data).isSome = true := by
  simp only [stockIter]
  split
  · simp [afind_aset_self]
  · split <;> exact processStock_data_self t _ acc

theorem stockIter_successes (env : Env) (t : String) (acc : AllResults) (st : SysState) :
    ∃ l, (stockIter env t acc st).1.successes = acc.successes ++ l := by
  simp only [stockIter]
  split
  · exact ⟨[t], rfl⟩
  · split <;> exact processStock_successes t _ acc

theorem stockIter_isSome_mono (env : Env) (t : String) (acc : AllResults)
    (st : SysState) (k : String) (h : (afind k acc.data).isSome = true) :
    (afind k (stockIter env t acc st).1.data).isSome = true := by
  by_cases hk : k = t
  · subst hk
    exact stockIter_data_self env k acc st
  · rw [stockIter_data_ne env t acc st k hk]
    exact h

theorem stocksLoop_cached (env : Env) :
    ∀ ts acc st, (stocksLoop env ts acc st).1.cached = acc.cached := by
  intro ts
  induction ts with
  | nil => intro acc st; rfl
  | cons t rest ih =>
    intro acc st
    simp only [stocksLoop]
    rw [ih]
    exact stockIter_cached env t acc st

theorem stocksLoop_data_ne (env : Env) :
    ∀ ts acc st k, k ∉ ts →
      afind k (stocksLoop env ts acc st).1.data = afind k acc.data := by
  intro ts
  induction ts with
  | nil => intro acc st k _; rfl
  | cons t rest ih =>
    intro acc st k hk
    simp only [stocksLoop]
    rw [ih _ _ k (by intro hx; exact hk (List.mem_cons_of_mem t hx))]
    exact stockIter_data_ne env t acc st k (by intro hx; exact hk (hx ▸ List.mem_cons_self t rest))

theorem stocksLoop_successes_sub (env : Env) :
    ∀ ts acc st s, s ∈ acc.successes → s ∈ (stocksLoop env ts acc st).1.successes := by
  intro ts
  induction ts with
  | nil => intro acc st s h; exact h
  | cons t rest ih =>
    intro acc st s h
    simp only [stocksLoop]
    obtain ⟨l, hl⟩ := stockIter_successes env t acc st
    exact ih _ _ s (by rw [hl]; exact List.mem_append_left l h)

theorem stocksLoop_isSome (env : Env) :
    ∀ ts acc st k, ((afind k acc.data).isSome = true ∨ k ∈ ts) →
      (afind k (stocksLoop env ts acc st).1.data).isSome = true := by
  intro ts
  induction ts with
  | nil =>
    intro acc st k h
    rcases h with h | h
    · exact h
    · simp at h
  | cons t rest ih =>
    intro acc st k h
    simp only [stocksLoop]
    rcases h with h | h
    · exact ih _ _ k (Or.inl (stockIter_isSome_mono env t acc st k h))
    · rcases List.mem_cons.mp h with h | h
      · subst h
        exact ih _ _ k (Or.inl (stockIter_data_self env k acc st))
      · exact ih _ _ k (Or.inr h)

theorem processBtc_cached (r : FetchResult) (acc : AllResults) :
    (processBtc r acc).cached = acc.cached := by
  unfold processBtc
  split_ifs <;> rfl

theorem processEur_cached (r : FetchResult) (acc : AllResults) :
    (processEur r acc).cached = acc.cached := by
  unfold processEur
  split_ifs <;> rfl

theorem processBtc_isSome_mono (r : FetchResult) (acc : AllResults) (k : String)
    (h : (afind k acc.data).isSome = true) :
    (afind k (processBtc r acc).data).isSome = true := by
  by_cases hk : k = "btc"
  · subst hk
    unfold processBtc
    split_ifs <;> simp [afind_aset_self]
  · unfold processBtc
    split_ifs <;> simpa [afind_aset_ne (Ne.symm hk)] using h

theorem processEur_isSome_mono (r : FetchResult) (acc : AllResults) (k : String)
    (h : (afind k acc.data).isSome = true) :
    (afind k (processEur r acc).data).isSome = true := by
  by_cases hk : k = "eurUsd"
  · subst hk
    unfold processEur
    split_ifs <;> simp [afind_aset_self]
  · unfold processEur
    split_ifs <;> simpa [afind_aset_ne (Ne.symm hk)] using h

theorem processBtc_data_ne (r : FetchResult) (acc : AllResults) (k : String)
    (h : k ≠ "btc") :
    afind k (processBtc r acc).data = afind k acc.data := by
  unfold processBtc
  split_ifs <;> simp [afind_aset_ne (Ne.symm h)]

theorem processEur_data_ne (r : FetchResult) (acc : AllResults) (k : String)
    (h : k ≠ "eurUsd") :
    afind k (processEur r acc).data = afind k acc.data := by
  unfold processEur
  split_ifs <;> simp [afind_aset_ne (Ne.symm h)]

/-! ## C9: fetchAndCachePrice never throws -/

/-- C9: for every key, state and upstream behaviour, `fetchAndCachePrice`
returns normally (the embedding is a total function mirroring the
try/catch): the result carries the key; on success it has no error and a
value; on failure it carries an error message; whenever any cache entry
exists for the key, a failure returns that entry's value with `stale = true`;
and consequently the ok-branch of the `/api/prices/all` handler never
produces the 503 status — per-key upstream failures alone cannot reach it. -/
theorem claim9_fetch_total (env : Env) (key : String) (st : SysState) :
    ((fetchAndCachePrice env key st).1.key = key) ∧
    ((fetchAndCachePrice env key st).1.success = true →
      (fetchAndCachePrice env key st).1.error = none ∧
      ∃ v, (fetchAndCachePrice env key st).1.value = some v) ∧
    ((fetchAndCachePrice env key st).1.success = false →
      ∃ e, (fetchAndCachePrice env key st).1.error = some e) ∧
    (∀ entry, cacheGetRaw key st.cache = some entry →
      (fetchAndCachePrice env key st).1.success = false →
      (fetchAndCachePrice env key st).1.value = some entry.value ∧
      (fetchAndCachePrice env key st).1.stale = true) ∧
    (∀ env2 st2, (pricesAllHandler (.ok (fetchAllPrices env2 st2).1)).1 ≠ 503) := by
  have h503 : ∀ env2 st2,
      (pricesAllHandler (.ok (fetchAllPrices env2 st2).1)).1 ≠ 503 := by
    intro env2 st2
    simp only [pricesAllHandler]
    split <;> norm_num
  unfold fetchAndCachePrice
  rcases hT : fetchAndCachePriceTry env key st with ⟨res, st1⟩
  have hc : st1.cache = st.cache := by
    have hx := tryFetch_cache env key st
    rw [hT] at hx
    exact hx
  cases res with
  | ok v =>
    refine ⟨rfl, ?_, ?_, ?_, h503⟩
    · intro _
      exact ⟨rfl, v, rfl⟩
    · intro hx
      simp at hx
    · intro entry _ hx
      simp at hx
  | error e =>
    refine ⟨?_, ?_, ?_, ?_, h503⟩
    · cases hg : cacheGetRaw key st1.cache <;> simp [hg]
    · intro hx
      cases hg : cacheGetRaw key st1.cache <;> simp [hg] at hx
    · intro _
      cases hg : cacheGetRaw key st1.cache with
      | some entry => exact ⟨e, by simp [hg]⟩
      | none => exact ⟨e, by simp [hg]⟩
    · intro entry2 hentry _
      have hg : cacheGetRaw key st1.cache = some entry2 := by
        rw [hc]
        exact hentry
      simp [hg]

/-- Witness for C9: a failing BTC fetch against the warm cache serves the
previously cached entry with the stale flag. -/
theorem claim9_witness :
    (fetchAndCachePrice envFailAll "btc" stWarm).1.value =
      some (freshE (.num 100000)).value ∧
    (fetchAndCachePrice envFailAll "btc" stWarm).1.stale = true :=
  (claim9_fetch_total envFailAll "btc" stWarm).2.2.2.1 (freshE (.num 100000))
    rfl rfl

/-! ## C1: warm-cache fast path -/

/-- C1 (amended): whenever all seven keys hold non-expired cache entries
whose values are JS-truthy, `fetchAllPrices` returns exactly those cached
values with `cached = true`, `partial = false`, `stale = false`, empty
errors and all seven keys in `successes`, leaving the store, the `sets`
counter, the rate limiter, the clock, the sleep log and the upstream-attempt
counter untouched (only the seven hit counters move) — so a second
back-to-back call against such a cache makes zero upstream calls. The
truthiness condition is necessary: a fresh entry holding a falsy value (0 or
null) defeats the fast path (see C10). -/
theorem claim1_warm_cache_fast_path (env : Env) (st : SysState)
    (vb vm ve vf vc vk vd : JSValue)
    (h1 : lookupFresh st.now "btc" st.cache.store = some vb) (t1 : truthy vb = true)
    (h2 : lookupFresh st.now "MSTR" st.cache.store = some vm) (t2 : truthy vm = true)
    (h3 : lookupFresh st.now "eurUsd" st.cache.store = some ve) (t3 : truthy ve = true)
    (h4 : lookupFresh st.now "STRF" st.cache.store = some vf) (t4 : truthy vf = true)
    (h5 : lookupFresh st.now "STRC" st.cache.store = some vc) (t5 : truthy vc = true)
    (h6 : lookupFresh st.now "STRK" st.cache.store = some vk) (t6 : truthy vk = true)
    (h7 : lookupFresh st.now "STRD" st.cache.store = some vd) (t7 : truthy vd = true) :
    fetchAllPrices env st =
      ({ data := [("btc", vb), ("MSTR", vm), ("eurUsd", ve), ("STRF", vf),
                  ("STRC", vc), ("STRK", vk), ("STRD", vd)],
         errors := [],
         successes := ["BTC", "MSTR", "EUR/USD", "STRF", "STRC", "STRK", "STRD"],
         cached := true, partialFlag := false, stale := false },
       { st with cache := { st.cache with hits := st.cache.hits + 7 } }) := by
  have e1 : cacheGet st.now "btc" st.cache =
      (some vb, { st.cache with hits := st.cache.hits + 1 }) := cacheGet_hit h1
  have e2 : cacheGet st.now "MSTR" { st.cache with hits := st.cache.hits + 1 } =
      (some vm, { st.cache with hits := st.cache.hits + 1 + 1 }) := cacheGet_hit h2
  have e3 : cacheGet st.now "eurUsd" { st.cache with hits := st.cache.hits + 1 + 1 } =
      (some ve, { st.cache with hits := st.cache.hits + 1 + 1 + 1 }) := cacheGet_hit h3
  have e4 : cacheGet st.now "STRF" { st.cache with hits := st.cache.hits + 1 + 1 + 1 } =
      (some vf, { st.cache with hits := st.cache.hits + 1 + 1 + 1 + 1 }) := cacheGet_hit h4
  have e5 : cacheGet st.now "STRC"
        { st.cache with hits := st.cache.hits + 1 + 1 + 1 + 1 } =
      (some vc, { st.cache with hits := st.cache.hits + 1 + 1 + 1 + 1 + 1 }) :=
    cacheGet_hit h5
  have e6 : cacheGet st.now "STRK"
        { st.cache with hits := st.cache.hits + 1 + 1 + 1 + 1 + 1 } =
      (some vk, { st.cache with hits := st.cache.hits + 1 + 1 + 1 + 1 + 1 + 1 }) :=
    cacheGet_hit h6
  have e7 : cacheGet st.now "STRD"
        { st.cache with hits := st.cache.hits + 1 + 1 + 1 + 1 + 1 + 1 } =
      (some vd, { st.cache with hits := st.cache.hits + 1 + 1 + 1 + 1 + 1 + 1 + 1 }) :=
    cacheGet_hit h7
  simp only [fetchAllPrices, e1, e2, e3, e4, e5, e6, e7, truthyOpt, t1, t2, t3, t4,
    t5, t6, t7, Option.getD_some, Bool.true_and, Bool.and_self, if_true]

/-- Witness for C1: the warm state with all seven keys fresh and truthy. -/
theorem claim1_witness :
    fetchAllPrices envOkAll stWarm =
      ({ data := [("btc", .num 100000), ("MSTR", .obj [("price", 420)]),
                  ("eurUsd", .num 2), ("STRF", .obj [("price", 100)]),
                  ("STRC", .obj [("price", 100)]), ("STRK", .obj [("price", 100)]),
                  ("STRD", .obj [("price", 100)])],
         errors := [],
         successes := ["BTC", "MSTR", "EUR/USD", "STRF", "STRC", "STRK", "STRD"],
         cached := true, partialFlag := false, stale := false },
       { stWarm with cache := { stWarm.cache with hits := stWarm.cache.hits + 7 } }) :=
  claim1_warm_cache_fast_path envOkAll stWarm
    (.num 100000) (.obj [("price", 420)]) (.num 2) (.obj [("price", 100)])
    (.obj [("price", 100)]) (.obj [("price", 100)]) (.obj [("price", 100)])
    rfl rfl rfl rfl rfl rfl rfl rfl rfl rfl rfl rfl rfl rfl

/-- Counterexample for C1 as stated: all seven keys hold non-expired entries
(`btc` stores the falsy number 0), yet the fast path is skipped — the result
is not marked cached, two upstream attempts are dispatched (BTC and EUR/USD)
and two cache writes happen. -/
theorem claim1_cx :
    (fetchAllPrices envOkAll stWarmFalsy).1.cached = false ∧
    (fetchAllPrices envOkAll stWarmFalsy).2.attempts = 2 ∧
    (fetchAllPrices envOkAll stWarmFalsy).2.cache.sets = 2 ∧
    lookupFresh stWarmFalsy.now "btc" stWarmFalsy.cache.store = some (.num 0) := by
  refine ⟨rfl, rfl, rfl, rfl⟩

/-! ## C10: truthiness gating of the cache checks -/

@[simp] theorem canMakeRequest_snd (now : ℕ) (api : String) (limit : ℕ) (rl : RL) :
    (canMakeRequest now api limit rl).2 = rlCleanup now api rl := rfl

theorem backoffGo_first_ok (env : Env) (key : String) (maxR rem attempt : ℕ)
    (le : String) (st : SysState) (v : JSValue)
    (hw : env.outcome key attempt = .ok v) :
    backoffGo env key maxR (rem + 1) attempt le st =
      (.ok v, { st with attempts := st.attempts + 1 }) := by
  simp [backoffGo, hw]

theorem fetchWithBackoff_first_ok (env : Env) (key : String) (st : SysState)
    (v : JSValue) (hw : env.outcome key 0 = .ok v) :
    fetchWithBackoff env key MAX_RETRIES st =
      (.ok v, { st with attempts := st.attempts + 1 }) :=
  backoffGo_first_ok env key MAX_RETRIES 4 0 "" st v hw

theorem fetchPrice_stock_ok (env : Env) (t : String) (st : SysState) (w : JSValue)
    (hbt : ¬ t = "btc") (heu : ¬ t = "eurUsd")
    (hw : env.outcome t 0 = .ok w)
    (hrl : (afind "polygon" st.rl).getD [] = []) :
    fetchAndCachePrice env t st =
      ({ success := true, key := t, value := some w, stale := false, error := none },
       { st with cache := cacheSet st.now (env.rand st.randIdx) t w st.cache,
                 rl := recordRequest st.now "polygon" (rlCleanup st.now "polygon" st.rl),
                 randIdx := st.randIdx + 1,
                 attempts := st.attempts + 1 }) := by
  have hcan : (canMakeRequest st.now "polygon" POLYGON_RATE_LIMIT st.rl).1 = true := by
    rw [canMakeRequest_fst]
    unfold retained
    rw [hrl]
    simp [POLYGON_RATE_LIMIT]
  unfold fetchAndCachePrice fetchAndCachePriceTry
  rw [if_neg hbt, if_neg heu]
  simp only [canMakeRequest_snd, hcan, if_true,
    fetchWithBackoff_first_ok env t _ w hw]

theorem stocks_phase_mstr (env : Env) (acc : AllResults) (stP : SysState)
    (e : CacheEntry) (w : JSValue)
    (hfind : afind "MSTR" stP.cache.store = some e)
    (hv : truthy e.value = false)
    (hrl : (afind "polygon" stP.rl).getD [] = [])
    (hw : env.outcome "MSTR" 0 = .ok w) :
    (stocksLoop env stockKeys acc stP).1.cached = acc.cached ∧
    afind "MSTR" (stocksLoop env stockKeys acc stP).1.data = some w ∧
    "MSTR" ∈ (stocksLoop env stockKeys acc stP).1.successes := by
  have hg : truthyOpt (lookupFresh stP.now "MSTR" stP.cache.store) = false :=
    truthyOpt_lookupFresh_falsy _ _ _ e hfind hv
  have hfr := fetchPrice_stock_ok env "MSTR"
    { stP with cache := (cacheGet stP.now "MSTR" stP.cache).2 } w
    (by decide) (by decide) hw hrl
  have hiter1 : (stockIter env "MSTR" acc stP).1 =
      { acc with data := aset "MSTR" w acc.data,
                 successes := acc.successes ++ ["MSTR"] } := by
    simp only [stockIter, cacheGet_fst, hg, Bool.false_eq_true, if_false, ite_false,
      hfr, processStock, if_true, Option.getD_some]
    split <;> rfl
  have hsplit : stocksLoop env stockKeys acc stP =
      stocksLoop env ["STRF", "STRC", "STRK", "STRD"]
        (stockIter env "MSTR" acc stP).1 (stockIter env "MSTR" acc stP).2 := rfl
  rw [hsplit, hiter1]
  refine ⟨?_, ?_, ?_⟩
  · rw [stocksLoop_cached]
  · rw [stocksLoop_data_ne env _ _ _ "MSTR" (by decide)]
    exact afind_aset_self "MSTR" w acc.data
  · exact stocksLoop_successes_sub env _ _ _ "MSTR"
      (List.mem_append_right _ (List.mem_singleton.mpr rfl))

theorem fetchAll_miss_mstr (env : Env) (stG : SysState) (acc : AllResults)
    (e : CacheEntry) (w : JSValue)
    (hM : afind "MSTR" stG.cache.store = some e)
    (hv : truthy e.value = false)
    (hrl : (afind "polygon" stG.rl).getD [] = [])
    (hw : env.outcome "MSTR" 0 = .ok w) :
    (stocksLoop env stockKeys
      (processEur (fetchAndCachePrice env "eurUsd" (fetchAndCachePrice env "btc" stG).2).1
        (processBtc (fetchAndCachePrice env "btc" stG).1 acc))
      (fetchAndCachePrice env "eurUsd" (fetchAndCachePrice env "btc" stG).2).2).1.cached =
      acc.cached ∧
    afind "MSTR" (stocksLoop env stockKeys
      (processEur (fetchAndCachePrice env "eurUsd" (fetchAndCachePrice env "btc" stG).2).1
        (processBtc (fetchAndCachePrice env "btc" stG).1 acc))
      (fetchAndCachePrice env "eurUsd" (fetchAndCachePrice env "btc" stG).2).2).1.data =
      some w ∧
    "MSTR" ∈ (stocksLoop env stockKeys
      (processEur (fetchAndCachePrice env "eurUsd" (fetchAndCachePrice env "btc" stG).2).1
        (processBtc (fetchAndCachePrice env "btc" stG).1 acc))
      (fetchAndCachePrice env "eurUsd" (fetchAndCachePrice env "btc" stG).2).2).1.successes := by
  have hfindP : afind "MSTR"
      ((fetchAndCachePrice env "eurUsd" (fetchAndCachePrice env "btc" stG).2).2).cache.store =
      some e := by
    rw [fetchPrice_store_ne env "eurUsd" "MSTR" _ (by decide),
      fetchPrice_store_ne env "btc" "MSTR" stG (by decide)]
    exact hM
  have hrlP : (afind "polygon"
      ((fetchAndCachePrice env "eurUsd" (fetchAndCachePrice env "btc" stG).2).2).rl).getD [] =
      [] := by
    rw [fetchPrice_rl_noquota env _ "eurUsd" (Or.inr rfl),
      fetchPrice_rl_noquota env stG "btc" (Or.inl rfl)]
    exact hrl
  obtain ⟨hA, hB, hC⟩ := stocks_phase_mstr env
    (processEur (fetchAndCachePrice env "eurUsd" (fetchAndCachePrice env "btc" stG).2).1
      (processBtc (fetchAndCachePrice env "btc" stG).1 acc))
    ((fetchAndCachePrice env "eurUsd" (fetchAndCachePrice env "btc" stG).2).2)
    e w hfindP hv hrlP hw
  refine ⟨hA.trans ?_, hB, hC⟩
  rw [processEur_cached, processBtc_cached]

/-- C10: `fetchAllPrices` gates on JavaScript truthiness of the cached value
rather than on entry freshness — a non-expired `MSTR` entry holding a falsy
value defeats the warm-cache fast path (the result is not marked cached) and
the key is re-fetched from upstream: with the Polygon ledger clear and the
first upstream attempt returning `w`, the response carries the freshly
fetched `w` (not the cached falsy value) and lists the key as a success. -/
theorem claim10_truthiness_gating (env : Env) (st : SysState) (e : CacheEntry)
    (w : JSValue)
    (hM : afind "MSTR" st.cache.store = some e)
    (hv : truthy e.value = false)
    (hrl : (afind "polygon" st.rl).getD [] = [])
    (hw : env.outcome "MSTR" 0 = .ok w) :
    (fetchAllPrices env st).1.cached = false ∧
    afind "MSTR" (fetchAllPrices env st).1.data = some w ∧
    "MSTR" ∈ (fetchAllPrices env st).1.successes := by
  have hcond : truthyOpt (lookupFresh st.now "MSTR" st.cache.store) = false :=
    truthyOpt_lookupFresh_falsy _ _ _ e hM hv
  simp only [fetchAllPrices, cacheGet_fst, cacheGet_store, hcond, Bool.and_false,
    Bool.false_and, Bool.false_eq_true, if_false, ite_false]
  exact fetchAll_miss_mstr env _ _ e w (by simp only [cacheGet_store]; exact hM)
    hv hrl hw

/-- Witness for C10: the warm cache whose fresh `MSTR` entry stores the falsy
number 0 under an environment whose Polygon upstream returns 50. -/
theorem claim10_witness :
    (fetchAllPrices envOkAll stMstrFalsy).1.cached = false ∧
    afind "MSTR" (fetchAllPrices envOkAll stMstrFalsy).1.data = some (.num 50) ∧
    "MSTR" ∈ (fetchAllPrices envOkAll stMstrFalsy).1.successes :=
  claim10_truthiness_gating envOkAll stMstrFalsy (freshE (.num 0)) (.num 50)
    rfl rfl rfl rfl

/-! ## C6: per-key fallbacks -/

/-- C6 (amended): a key that ends with neither a fresh result nor a stale
entry receives its declared fallback in `data` and is still listed in
`errors`: the scalar 100000 for `btc`, the scalar 1.05 for `eurUsd`, and for
the Polygon tickers the structured record `\x7bprice: 100, avg10d: 100\x7d` —
except `MSTR`, which receives `null` rather than a structured fallback; a
failed ticker also sets the partial flag. Every known key is present in the
`data` of every `fetchAllPrices` response. -/
theorem claim6_fallbacks :
    (∀ acc : AllResults, ∀ r : FetchResult, r.success = false → r.stale = false →
      (afind "btc" (processBtc r acc).data = some (.num 100000) ∧
       "BTC: " ++ r.error.getD "" ∈ (processBtc r acc).errors) ∧
      (afind "eurUsd" (processEur r acc).data = some (.num (21/20)) ∧
       "EUR/USD: " ++ r.error.getD "" ∈ (processEur r acc).errors) ∧
      (∀ t, afind t (processStock t r acc).data = some (stockFallback t) ∧
        t ++ ": " ++ r.error.getD "" ∈ (processStock t r acc).errors ∧
        (processStock t r acc).partialFlag = true)) ∧
    (∀ env st, ∀ k, k ∈ allKeys →
      (afind k (fetchAllPrices env st).1.data).isSome = true) := by
  constructor
  · intro acc r hs hst
    refine ⟨?_, ?_, ?_⟩
    · unfold processBtc
      simp [hs, hst, afind_aset_self]
    · unfold processEur
      simp [hs, hst, afind_aset_self]
    · intro t
      unfold processStock
      simp [hs, hst, afind_aset_self]
  · intro env st k hk
    simp only [fetchAllPrices]
    split
    · fin_cases hk <;> simp [afind]
    · apply stocksLoop_isSome
      fin_cases hk
      · exact Or.inl (processEur_isSome_mono _ _ _
          (processBtc_isSome_mono _ _ _ (by decide)))
      · exact Or.inl (processEur_isSome_mono _ _ _
          (processBtc_isSome_mono _ _ _ (by decide)))
      · exact Or.inr (by decide)
      · exact Or.inr (by decide)
      · exact Or.inr (by decide)
      · exact Or.inr (by decide)
      · exact Or.inr (by decide)

/-- Witness for C6 at a concrete failed fetch result and a concrete run. -/
theorem claim6_witness :
    afind "MSTR" (processStock "MSTR"
      { success := false, key := "MSTR", value := none, stale := false,
        error := some "down" }
      { data := [], errors := [], successes := [], cached := false,
        partialFlag := false, stale := false }).data = some (stockFallback "MSTR") ∧
    (afind "btc" (fetchAllPrices envOkAll st0).1.data).isSome = true := by
  constructor
  · exact ((claim6_fallbacks.1 _ _ rfl rfl).2.2 "MSTR").1
  · exact claim6_fallbacks.2 envOkAll st0 "btc" (by decide)

/-- Counterexample for C6 as stated: when every Polygon request fails with no
stale entry available, `MSTR` receives the value `null` in `data` — not a
structured record — while the preferred tickers do get the structured
fallback; the key is still listed in `errors`. -/
theorem claim6_cx :
    afind "MSTR" (fetchAllPrices envPolyDown st0).1.data = some JSValue.nullV ∧
    "MSTR: down" ∈ (fetchAllPrices envPolyDown st0).1.errors ∧
    afind "STRF" (fetchAllPrices envPolyDown st0).1.data =
      some (.obj [("price", 100), ("avg10d", 100)]) := by
  refine ⟨rfl, by decide, rfl⟩
